import Mathlib

/-!
Verification of the PyMPA detection engine (src/pympa38.dir/pympa39mac.py)
against its natural-language specification.

The Python source is shallowly embedded:
* float arrays become `List ℚ` where the code only adds, multiplies,
  divides and compares (exact rational arithmetic), and `List ℝ` where a
  square root (`numpy`/`bottleneck` `nanstd`) enters a computation;
* fallible operations (`max()` of an empty slice raises `ValueError`,
  an empty slice assigned to an array cell raises, the all-channel-removed
  stack divides by zero producing an invalid result) are modelled with
  `Option`, `none` standing for the raised exception / invalid value;
* the in-place `for ... in enumerate(stall): stall.remove(tr)` loop of
  `stack` is embedded with obspy `Stream` iteration semantics:
  `Stream.__iter__` returns an iterator over a COPY of the trace list
  (documented as making in-loop `remove()` safe), so the loop visits
  every original trace once, in order, with `std_trac[itr]` aligned,
  while `Stream.remove` deletes from the live stream the first trace
  equal to the current one.
-/

namespace Pympa

/-! Rational list utilities shared by several components -/

/-- Arithmetic mean of a list, `bn.nanmean` on NaN-free data
(`sum / len`; for the empty list Lean's `x / 0 = 0` convention applies,
matching no reachable use in the source). -/
def meanQ (xs : List ℚ) : ℚ := xs.sum / xs.length

/-- Population variance (`ddof = 0`), the square of `bn.nanstd` on
NaN-free data. -/
def popVarQ (xs : List ℚ) : ℚ :=
  (xs.map (fun x => (x - meanQ xs) ^ 2)).sum / xs.length

/-- Python 3 `round` to an integer: round half to even. -/
def pyRound (q : ℚ) : ℤ :=
  let f := ⌊q⌋
  let r := q - f
  if r < 1 / 2 then f
  else if 1 / 2 < r then f + 1
  else if f % 2 = 0 then f else f + 1

/-- Python `round(x, 2)`: round half to even at the second decimal. -/
def pythonRound2 (q : ℚ) : ℚ := (pyRound (q * 100) : ℚ) / 100

/-- Embeds `np.abs` on a single value. -/
def pyAbs (q : ℚ) : ℚ := if q < 0 then -q else q

/-- Two-argument minimum keeping the earlier argument on ties, as
Python's `min` does. -/
def min2 (a b : ℚ) : ℚ := if b < a then b else a

/-- Two-argument maximum keeping the earlier argument on ties, as
Python's `max` does. -/
def max2 (a b : ℚ) : ℚ := if a < b then b else a

/-- Python `min` over a nonempty list (`0` is a junk value for `[]`,
where the source would raise `ValueError`). -/
def pyMinQ : List ℚ → ℚ
  | [] => 0
  | x :: xs => xs.foldl min2 x

/-- Embeds `np.median`: sort ascending; odd length takes the middle element,
even length averages the two middle elements.  `np.median([])` is NaN in
the source; the value `0` returned here is junk for that case and every
theorem below either avoids it or is insensitive to it. -/
def npMedian (xs : List ℚ) : ℚ :=
  let s := List.insertionSort (fun a b => a ≤ b) xs
  let n := xs.length
  if n = 0 then 0
  else if n % 2 = 1 then s.getD (n / 2) 0
  else (s.getD (n / 2 - 1) 0 + s.getD (n / 2) 0) / 2

/-! MagnitudeEstimator: `reject_moutliers` (source lines 248-267)
and the combination `mm[itrig] = round(np.mean(mdr), 2)` (line 617). -/

/-- Source `reject_moutliers(data, m)` translated statement by statement:
`data = data[np.nonzero(data)[0]]`; `datamed = np.median(data)`;
`d = np.abs(data - datamed)`; `mdev = 2 * np.median(d)`;
if `mdev == 0` every kept entry is overwritten with the median and the
whole (overwritten) array is returned, else the entries with
`d / mdev <= m` are returned in order.

(When all entries are zero the source's `mdev` is NaN, it takes the
`else` branch and returns the empty array; this model takes the `then`
branch and returns `List.replicate 0 _ = []` — same output.) -/
def reject_moutliers (data : List ℚ) (m : ℚ) : List ℚ :=
  let nz := data.filter (fun x => x ≠ 0)
  let datamed := npMedian nz
  let d := nz.map (fun x => pyAbs (x - datamed))
  let mdev := 2 * npMedian d
  if mdev = 0 then List.replicate nz.length datamed
  else nz.filter (fun x => pyAbs (x - datamed) / mdev ≤ m)

/-- Modelled from the spec's words (claim C5), for comparison with
`reject_moutliers`: discard exact-zero entries, compute the median of
the remainder and the median absolute deviation scaled by 2 (`mdev`),
keep only values whose absolute deviation from the median divided by
`mdev` is `≤ m`; if `mdev = 0` treat every remaining value as the
median. -/
def rejectMoutliersSpec (data : List ℚ) (m : ℚ) : List ℚ :=
  let kept := data.filter (fun x => x ≠ 0)
  let med := npMedian kept
  let mdev := 2 * npMedian (kept.map (fun x => pyAbs (x - med)))
  if mdev = 0 then kept.map (fun _ => med)
  else kept.filter (fun x => pyAbs (x - med) / mdev ≤ m)

/-- Embeds `mm[itrig] = round(np.mean(mdr), 2)` (source line 617). -/
def combinedMagnitude (mdr : List ℚ) : ℚ := pythonRound2 (meanQ mdr)

/-! SingleChannelValidator: `csc` (source lines 156-233) and the
caller's emission test `int(nch[itrig]) >= nch_min` (line 566). -/

/-- Python slice `xs[l:r]` (step 1) with full negative-index and
clamping semantics. -/
def pySlice (xs : List ℚ) (l r : ℤ) : List ℚ :=
  let n : ℤ := xs.length
  let lo : ℤ := if l < 0 then max (n + l) 0 else min l n
  let hi : ℤ := if r < 0 then max (n + r) 0 else min r n
  (xs.drop lo.toNat).take (hi - lo).toNat

/-- Python `max()` over an iterable; `none` models the `ValueError`
raised on an empty argument. -/
def pyMax : List ℚ → Option ℚ
  | [] => none
  | x :: xs => some (xs.foldl max2 x)

/-- Running argmax: first index of the strictly largest value seen. -/
def argmaxAux : List ℚ → ℕ → ℚ → ℕ → ℕ
  | [], bi, _, _ => bi
  | x :: t, bi, bv, i => if bv < x then argmaxAux t i x (i + 1) else argmaxAux t bi bv (i + 1)

/-- Embeds `np.argmax`: index of the first occurrence of the maximum; `none`
models the `ValueError` raised on an empty array. -/
def pyArgmax : List ℚ → Option ℕ
  | [] => none
  | x :: t => some (argmaxAux t 0 x 1)

/-- One iteration of the `for icft, tsc in enumerate(stall)` loop of
`csc` (source lines 181-192): the windowed peak
`max(tsc.data[ts - tol : ts + tol + 1])`, the exact-sample value
`tsc.data[ts : ts + 1]` (the length-1 slice assigned to a scalar cell;
an empty slice raises), and the signed offset `tol - argmax`. -/
def perChannel (dat : List ℚ) (ts : ℤ) (tol : ℕ) : Option (ℚ × ℚ × ℤ) :=
  match pyMax (pySlice dat (ts - tol) (ts + tol + 1)),
        pyArgmax (pySlice dat (ts - tol) (ts + tol + 1)),
        pySlice dat ts (ts + 1) with
  | some mx, some am, [v] => some (mx, v, (tol : ℤ) - am)
  | _, _, _ => none

/-- All per-channel measurements of the `enumerate(stall)` loop, in
order; `none` as soon as one channel raises. -/
def cscChannels (stallData : List (List ℚ)) (ts : ℤ) (tol : ℕ) :
    Option (List (ℚ × ℚ × ℤ)) :=
  match stallData with
  | [] => some []
  | dat :: rest =>
    match perChannel dat ts tol, cscChannels rest ts tol with
    | some c, some cs => some (c :: cs)
    | _, _ => none

/-- The nine statistics returned by `csc` (source line 233). -/
structure CscRes where
  nch : ℕ
  cft_ave : ℚ
  crt : ℚ
  cft_ave_trg : ℚ
  crt_trg : ℚ
  nch03 : ℕ
  nch05 : ℕ
  nch07 : ℕ
  nch09 : ℕ
deriving DecidableEq

/-- The all-ones rejection sentinel (source lines 222-232). -/
def cscSentinel : CscRes := ⟨1, 1, 1, 1, 1, 1, 1, 1, 1⟩

/-- Embeds `nch = (max_sct > single_channelcft).sum()` (source line 193), when
every channel's windowed peak was computable. -/
def nchOf (stallData : List (List ℚ)) (ts : ℤ) (tol : ℕ) (ccThr : ℚ) : Option ℕ :=
  (cscChannels stallData ts tol).map
    (fun chans => (chans.map (fun c => c.1)).countP (fun v => decide (ccThr < v)))

/-- Source function `csc` (source lines 156-233), at the level of the already-computed
trigger sample `ts`: per-channel windowed peaks and exact-sample values,
the count of channels above the threshold, and either the aggregate
statistics (accepted) or the all-ones sentinel (rejected).  The
diagnostic `f1.write` lines have no effect on the returned value and are
not modelled. -/
def csc (stallData : List (List ℚ)) (ts : ℤ) (tol : ℕ)
    (ccThr : ℚ) (nchMin : ℕ) (tstda : ℚ) : Option CscRes :=
  match cscChannels stallData ts tol with
  | none => none
  | some chans =>
    let maxSct := chans.map (fun c => c.1)
    let maxTrg := chans.map (fun c => c.2.1)
    let nch := maxSct.countP (fun v => decide (ccThr < v))
    if nchMin ≤ nch then
      some ⟨nch, meanQ maxSct, meanQ maxSct / tstda,
            meanQ maxTrg, meanQ maxTrg / tstda,
            maxSct.countP (fun v => decide ((3 / 10 : ℚ) < v)),
            maxSct.countP (fun v => decide ((1 / 2 : ℚ) < v)),
            maxSct.countP (fun v => decide ((7 / 10 : ℚ) < v)),
            maxSct.countP (fun v => decide ((9 / 10 : ℚ) < v))⟩
    else some cscSentinel

/-- Embeds `trigger_sample = int(round(trigger_shift / tcft.stats.delta))`
(source line 174). -/
def triggerSampleOf (trgTime t0 delta : ℚ) : ℤ := pyRound ((trgTime - t0) / delta)

/-- The caller's per-trigger emission test
`if int(nch[itrig]) >= nch_min:` (source line 566): a detection record
is written exactly when it holds. -/
def emitsRecord (res : CscRes) (nchMin : ℕ) : Prop := nchMin ≤ res.nch

end Pympa

namespace Pympa

/-- Negative Python slice start indexes from the end of the list. -/
lemma pySlice_neg_left (xs : List ℚ) (l r : ℤ) (hl : l < 0)
    (h2 : 0 ≤ (xs.length : ℤ) + l) :
    pySlice xs l r = pySlice xs ((xs.length : ℤ) + l) r := by
  simp only [pySlice]
  rw [if_pos hl, if_neg (by omega : ¬((xs.length : ℤ) + l < 0)),
    max_eq_left h2, min_eq_left (by omega : (xs.length : ℤ) + l ≤ (xs.length : ℤ))]

end Pympa

/-- Claim C5: `reject_moutliers` discards exact-zero entries, computes the
median of the remainder and the median absolute deviation scaled by 2
(`mdev`), keeps only values whose absolute deviation from the median
divided by `mdev` is `≤ m`, and if `mdev = 0` treats every remaining
value as the median; on the magnitudes `[2.0, 2.1, 2.05, 5.0, 0]` with
`m = 1` it keeps `[2.0, 2.1, 2.05]` and the combined magnitude
`round(mean, 2)` is `2.05`. -/
theorem Pympa.C5_outlier_rejector :
    (∀ (data : List ℚ) (m : ℚ), reject_moutliers data m = rejectMoutliersSpec data m)
    ∧ reject_moutliers [2, 21 / 10, 41 / 20, 5, 0] 1 = [2, 21 / 10, 41 / 20]
    ∧ combinedMagnitude (reject_moutliers [2, 21 / 10, 41 / 20, 5, 0] 1) = 41 / 20 := by
  refine ⟨fun data m => ?_, ?_, ?_⟩
  · simp only [reject_moutliers, rejectMoutliersSpec, List.map_const']
  · norm_num [reject_moutliers, npMedian, List.insertionSort, List.orderedInsert, pyAbs]
  · norm_num [reject_moutliers, npMedian, List.insertionSort, List.orderedInsert, pyAbs,
      combinedMagnitude, pythonRound2, pyRound, meanQ]

/-- Claim C10: when the trigger's nominal sample index `ts` is smaller
than the sample tolerance, the slice start `ts - tol` is negative, so
the examined samples are taken relative to the end of the trace (Python
negative indexing) instead of the window around the trigger; and as soon
as the trace has at least `2*tol + 1` samples that end-relative slice is
empty, so `max()` fails (`none`) and the whole `csc` call fails. -/
theorem Pympa.C10_negative_slice (dat : List ℚ) (ts : ℤ) (tol : ℕ)
    (h0 : 0 ≤ ts) (h1 : ts < (tol : ℤ)) (h2 : (tol : ℤ) ≤ (dat.length : ℤ) + ts) :
    pySlice dat (ts - tol) (ts + tol + 1)
      = pySlice dat ((dat.length : ℤ) + (ts - tol)) (ts + tol + 1)
    ∧ (2 * tol + 1 ≤ dat.length →
        pySlice dat (ts - tol) (ts + tol + 1) = []
        ∧ pyMax (pySlice dat (ts - tol) (ts + tol + 1)) = none
        ∧ ∀ (rest : List (List ℚ)) (ccThr : ℚ) (nchMin : ℕ) (tstda : ℚ),
            csc (dat :: rest) ts tol ccThr nchMin tstda = none) := by
  refine ⟨pySlice_neg_left dat _ _ (by omega) (by omega), fun hbig => ?_⟩
  have hempty : pySlice dat (ts - tol) (ts + tol + 1) = [] := by
    simp only [pySlice]
    rw [if_pos (by omega : ts - (tol : ℤ) < 0),
      if_neg (by omega : ¬(ts + (tol : ℤ) + 1 < 0)),
      max_eq_left (by omega : (0 : ℤ) ≤ (dat.length : ℤ) + (ts - tol)),
      min_eq_left (by omega : ts + (tol : ℤ) + 1 ≤ (dat.length : ℤ))]
    rw [show (ts + (tol : ℤ) + 1 - ((dat.length : ℤ) + (ts - tol))).toNat = 0 by omega]
    exact List.take_zero _
  have hpc : perChannel dat ts tol = none := by
    simp [perChannel, hempty, pyMax]
  refine ⟨hempty, by rw [hempty]; rfl, fun rest ccThr nchMin tstda => ?_⟩
  have hch : cscChannels (dat :: rest) ts tol = none := by
    simp [cscChannels, hpc]
  simp [csc, hch]

/-- Witness for C10 at `dat = [0,0,0]`, `ts = 0`, `tol = 1`. -/
theorem Pympa.C10_witness :
    pySlice [0, 0, 0] (-1) 2 = []
    ∧ pyMax (pySlice [0, 0, 0] (-1) 2) = none
    ∧ csc [[0, 0, 0]] 0 1 (1 / 2) 1 1 = none := by
  have h := (Pympa.C10_negative_slice [0, 0, 0] 0 1 (by norm_num) (by norm_num)
    (by norm_num)).2 (by norm_num)
  refine ⟨?_, ?_, ?_⟩
  · have h1 := h.1
    norm_num at h1 ⊢
    exact h1
  · have h1 := h.2.1
    norm_num at h1 ⊢
    exact h1
  · exact h.2.2 [] (1 / 2) 1 1

/-- Claim C3 (amended): when fewer than `nch_min` channels have a
windowed peak above the per-channel threshold, `csc` returns the
all-ones sentinel; and provided `nch_min ≥ 2` such a rejected trigger
fails the caller's emission test `int(nch) >= nch_min`, so no detection
record is produced.  (For `nch_min ≤ 1` the sentinel passes the test —
see the counterexample and claim C6.) -/
theorem Pympa.C3_reject_sentinel (stallData : List (List ℚ)) (ts : ℤ) (tol : ℕ)
    (ccThr : ℚ) (nchMin : ℕ) (tstda : ℚ) (res : CscRes) (k : ℕ)
    (hres : csc stallData ts tol ccThr nchMin tstda = some res)
    (hk : nchOf stallData ts tol ccThr = some k)
    (hrej : k < nchMin) :
    res = cscSentinel ∧ (2 ≤ nchMin → ¬ emitsRecord res nchMin) := by
  cases hch : cscChannels stallData ts tol with
  | none => rw [csc, hch] at hres; exact absurd hres (by simp)
  | some chans =>
    have hcount : (chans.map (fun c => c.1)).countP (fun v => decide (ccThr < v)) = k := by
      simpa [nchOf, hch] using hk
    simp only [csc, hch] at hres
    rw [hcount, if_neg (by omega : ¬ nchMin ≤ k)] at hres
    have hsent : res = cscSentinel := (Option.some.inj hres).symm
    refine ⟨hsent, fun hge2 hemit => ?_⟩
    rw [hsent] at hemit
    simp only [emitsRecord, cscSentinel] at hemit
    omega

/-- Witness for the amended C3 at `nch_min = 2`: one channel whose peak
`0` is below the threshold `1/2`, trigger rejected, record suppressed. -/
theorem Pympa.C3_witness :
    csc [[0, 0, 0]] 1 1 (1 / 2) 2 1 = some cscSentinel
    ∧ ¬ emitsRecord cscSentinel 2 := by
  have heval : csc [[0, 0, 0]] 1 1 (1 / 2) 2 1 = some cscSentinel := by
    norm_num [csc, cscChannels, perChannel, pySlice, pyMax, pyArgmax, argmaxAux, max2,
      cscSentinel, meanQ, show Int.toNat 3 = 3 from rfl]
  have h := Pympa.C3_reject_sentinel [[0, 0, 0]] 1 1 (1 / 2) 2 1 cscSentinel 0
    heval
    (by norm_num [nchOf, cscChannels, perChannel, pySlice, pyMax, pyArgmax, argmaxAux, max2,
      show Int.toNat 3 = 3 from rfl])
    (by norm_num)
  exact ⟨heval, h.2 (by norm_num)⟩

/-- Counterexample to C3 as stated: with `nch_min = 1` a trigger with
zero channels above threshold is rejected (`nchOf = 0 < 1`), `csc`
returns the all-ones sentinel, and the caller's emission test
`int(nch) >= nch_min` nevertheless accepts it, so a detection record IS
produced. -/
theorem Pympa.C3_counterexample :
    csc [[0, 0, 0]] 1 1 (1 / 2) 1 1 = some cscSentinel
    ∧ nchOf [[0, 0, 0]] 1 1 (1 / 2) = some 0
    ∧ (0 : ℕ) < 1
    ∧ emitsRecord cscSentinel 1 := by
  refine ⟨?_, ?_, by norm_num, ?_⟩
  · norm_num [csc, cscChannels, perChannel, pySlice, pyMax, pyArgmax, argmaxAux, max2,
      cscSentinel, meanQ, show Int.toNat 3 = 3 from rfl]
  · norm_num [nchOf, cscChannels, perChannel, pySlice, pyMax, pyArgmax, argmaxAux, max2,
      show Int.toNat 3 = 3 from rfl]
  · simp [emitsRecord, cscSentinel]

/-- Claim C6: because the rejection branch sets `nch = 1`, whenever
`nch_min ≤ 1` a trigger rejected by `csc` still passes the caller's
test `int(nch) >= nch_min` and is emitted as a detection record with
every statistic equal to the sentinel value 1. -/
theorem Pympa.C6_sentinel_emitted (stallData : List (List ℚ)) (ts : ℤ) (tol : ℕ)
    (ccThr : ℚ) (nchMin : ℕ) (tstda : ℚ) (res : CscRes) (k : ℕ)
    (hres : csc stallData ts tol ccThr nchMin tstda = some res)
    (hk : nchOf stallData ts tol ccThr = some k)
    (hmin : nchMin ≤ 1)
    (hrej : k < nchMin) :
    res = cscSentinel ∧ emitsRecord res nchMin := by
  cases hch : cscChannels stallData ts tol with
  | none => rw [csc, hch] at hres; exact absurd hres (by simp)
  | some chans =>
    have hcount : (chans.map (fun c => c.1)).countP (fun v => decide (ccThr < v)) = k := by
      simpa [nchOf, hch] using hk
    simp only [csc, hch] at hres
    rw [hcount, if_neg (by omega : ¬ nchMin ≤ k)] at hres
    have hsent : res = cscSentinel := (Option.some.inj hres).symm
    refine ⟨hsent, ?_⟩
    rw [hsent]
    simp only [emitsRecord, cscSentinel]
    omega

/-- Witness for C6 at `nch_min = 1`: the single channel's peak `1/4` is
below the threshold `1/2`, the trigger is rejected, yet the sentinel is
emitted. -/
theorem Pympa.C6_witness :
    csc [[1 / 4, 0, 0]] 1 1 (1 / 2) 1 1 = some cscSentinel
    ∧ emitsRecord cscSentinel 1 := by
  have heval : csc [[1 / 4, 0, 0]] 1 1 (1 / 2) 1 1 = some cscSentinel := by
    norm_num [csc, cscChannels, perChannel, pySlice, pyMax, pyArgmax, argmaxAux, max2,
      cscSentinel, meanQ, show Int.toNat 3 = 3 from rfl]
  have h := Pympa.C6_sentinel_emitted [[1 / 4, 0, 0]] 1 1 (1 / 2) 1 1 cscSentinel 0
    heval
    (by norm_num [nchOf, cscChannels, perChannel, pySlice, pyMax, pyArgmax, argmaxAux, max2,
      show Int.toNat 3 = 3 from rfl])
    (by norm_num) (by norm_num)
  exact ⟨heval, h.2⟩

namespace Pympa

/-! CrossCorrelator: `rolling_window` (source lines 58-61) and
`xcorr` (source lines 64-75).  Correlation data are floats fed through
`sqrt`, so this component is embedded over `ℝ`. -/

/-- Embeds `bn.nanmean` on NaN-free real data. -/
noncomputable def meanR (xs : List ℝ) : ℝ := xs.sum / xs.length

/-- Embeds `bn.nanstd` (population standard deviation, `ddof = 0`). -/
noncomputable def popStd (xs : List ℝ) : ℝ :=
  Real.sqrt ((xs.map (fun x => (x - meanR xs) ^ 2)).sum / xs.length)

/-- Embeds `rolling_window(a, window)`: the strided view whose rows are the
`len(a) - window + 1` consecutive windows of length `window`. -/
def rollingWindow (x : List ℝ) (m : ℕ) : List (List ℝ) :=
  (List.range (x.length - m + 1)).map (fun i => (x.drop i).take m)

/-- Embeds `xcorr(x, y)`: for each window `w`,
`sum((y - mean y) * (w - mean w)) / (len(y) * std w * std y)`, with the
entries at which the denominator is zero overwritten by `0`
(`c[M * bn.nanstd(tmp, -1) * stdy == 0] = 0`); under
`np.errstate(divide='ignore')` the overwrite makes the result identical
to this if-then-else. -/
noncomputable def xcorr (x y : List ℝ) : List ℝ :=
  (rollingWindow x y.length).map (fun w =>
    if (y.length : ℝ) * popStd w * popStd y = 0 then 0
    else (List.zipWith (fun a b => (a - meanR y) * (b - meanR w)) y w).sum
      / ((y.length : ℝ) * popStd w * popStd y))

/-- Mapping a list against itself: `zipWith` of a list with itself is a `map` of its diagonal. -/
lemma zipWith_self {α β : Type} (g : α → α → β) :
    ∀ l : List α, List.zipWith g l l = l.map (fun a => g a a)
  | [] => rfl
  | a :: t => by simp [zipWith_self g t]

end Pympa

/-- Claim C4: for `1 ≤ len(template) ≤ len(continuous)`, `xcorr` returns
a full-length result of `len(continuous) - len(template) + 1` samples,
and at every shift where `std(window) * std(template) = 0` the result is
exactly `0` (never an invalid value). -/
theorem Pympa.C4_xcorr_total (x y : List ℝ) (hM : 1 ≤ y.length)
    (hMN : y.length ≤ x.length) :
    (xcorr x y).length = x.length - y.length + 1
    ∧ ∀ (i : ℕ) (hi : i < (xcorr x y).length),
        popStd ((x.drop i).take y.length) * popStd y = 0 →
        (xcorr x y).get ⟨i, hi⟩ = 0 := by
  constructor
  · simp [xcorr, rollingWindow]
  · intro i hi hdeg
    simp only [xcorr, rollingWindow, List.get_eq_getElem, List.getElem_map,
      List.getElem_range]
    rw [if_pos (by rw [mul_assoc, hdeg, mul_zero])]

/-- Witness for C4 at `x = [0, 0]`, `y = [0]`: full length 2, and the
all-zero window has zero variance, so the correlation sample is 0. -/
theorem Pympa.C4_witness :
    (Pympa.xcorr [(0 : ℝ), 0] [(0 : ℝ)]).length = 2
    ∧ (Pympa.xcorr [(0 : ℝ), 0] [(0 : ℝ)]).get
        ⟨0, by norm_num [Pympa.xcorr, Pympa.rollingWindow]⟩ = 0 := by
  have h := Pympa.C4_xcorr_total [(0 : ℝ), 0] [(0 : ℝ)] (by norm_num) (by norm_num)
  refine ⟨by simpa using h.1, ?_⟩
  refine h.2 0 _ ?_
  norm_num [Pympa.popStd, Pympa.meanR]

/-- Claim C9 (amended): if the window of `x` at shift `i` is identical
to the template `y` AND the template has nonzero standard deviation,
then `xcorr x y` equals exactly `1` at shift `i` (exact arithmetic).
The nonzero-variance proviso is forced by the counterexample: a
constant template matches its own window but yields `0`, the degenerate
branch of C4. -/
theorem Pympa.C9_perfect_match (x y : List ℝ) (i : ℕ)
    (hw : (x.drop i).take y.length = y)
    (hstd : popStd y ≠ 0)
    (hi : i < (xcorr x y).length) :
    (xcorr x y).get ⟨i, hi⟩ = 1 := by
  have hyne : y ≠ [] := by
    rintro rfl
    simp [popStd, meanR] at hstd
  have hM : (0 : ℝ) < (y.length : ℝ) := by
    exact_mod_cast List.length_pos.mpr hyne
  have hpop : popStd y = Real.sqrt ((y.map (fun a => (a - meanR y) ^ 2)).sum / y.length) := rfl
  have hv0 : 0 ≤ (y.map (fun a => (a - meanR y) ^ 2)).sum / (y.length : ℝ) := by
    apply div_nonneg _ (le_of_lt hM)
    apply List.sum_nonneg
    intro a ha
    simp only [List.mem_map] at ha
    obtain ⟨b, _, rfl⟩ := ha
    positivity
  have hvpos : 0 < (y.map (fun a => (a - meanR y) ^ 2)).sum / (y.length : ℝ) := by
    rcases eq_or_lt_of_le hv0 with h | h
    · exact absurd (by rw [hpop, ← h, Real.sqrt_zero]) hstd
    · exact h
  have hss : popStd y * popStd y
      = (y.map (fun a => (a - meanR y) ^ 2)).sum / (y.length : ℝ) := by
    rw [hpop]
    exact Real.mul_self_sqrt hv0
  simp only [xcorr, rollingWindow, List.get_eq_getElem, List.getElem_map,
    List.getElem_range, hw]
  have hdenom : (y.length : ℝ) * popStd y * popStd y
      = (y.length : ℝ) * ((y.map (fun a => (a - meanR y) ^ 2)).sum / (y.length : ℝ)) := by
    rw [mul_assoc, hss]
  have hne : (y.length : ℝ) * popStd y * popStd y ≠ 0 := by
    rw [hdenom]
    exact ne_of_gt (mul_pos hM hvpos)
  rw [if_neg hne]
  rw [zipWith_self (fun a b => (a - meanR y) * (b - meanR y)) y]
  have hnum : (y.map (fun a => (a - meanR y) * (a - meanR y))).sum
      = (y.map (fun a => (a - meanR y) ^ 2)).sum := by
    simp only [← sq]
  have hSpos : 0 < (y.map (fun a => (a - meanR y) ^ 2)).sum := by
    have hmul := mul_pos hvpos hM
    rwa [div_mul_cancel₀ _ (ne_of_gt hM)] at hmul
  rw [hnum, hdenom, ← mul_div_assoc, mul_div_cancel_left₀ _ (ne_of_gt hM)]
  exact div_self (ne_of_gt hSpos)

/-- Witness for the amended C9: with `x = y = [0, 1]` (nonconstant
template) the correlation at shift 0 is exactly 1. -/
theorem Pympa.C9_witness :
    (Pympa.xcorr [(0 : ℝ), 1] [(0 : ℝ), 1]).get
      ⟨0, by norm_num [Pympa.xcorr, Pympa.rollingWindow]⟩ = 1 := by
  refine Pympa.C9_perfect_match [(0 : ℝ), 1] [(0 : ℝ), 1] 0 (by norm_num) ?_ _
  norm_num [Pympa.popStd, Pympa.meanR, Real.sqrt_ne_zero']

/-- Counterexample to C9 as stated: the constant template `[1, 1]`
matches its window at shift 0 exactly, yet `xcorr` returns `0`, not
`1.0` — the zero-variance guard takes precedence over a perfect match. -/
theorem Pympa.C9_counterexample :
    (([(1 : ℝ), 1].drop 0).take 2 = [(1 : ℝ), 1])
    ∧ (Pympa.xcorr [(1 : ℝ), 1] [(1 : ℝ), 1]).get
        ⟨0, by norm_num [Pympa.xcorr, Pympa.rollingWindow]⟩ ≠ 1 := by
  refine ⟨by norm_num, ?_⟩
  have hstd : Pympa.popStd [(1 : ℝ), 1] = 0 := by
    norm_num [Pympa.popStd, Pympa.meanR]
  simp only [Pympa.xcorr, Pympa.rollingWindow, List.get_eq_getElem, List.getElem_map,
    List.getElem_range]
  norm_num [hstd]

namespace Pympa

/-! ChannelStacker: `quality_cft` (source lines 119-121), `stack`
(source lines 124-153) and its call site (source lines 493-499).
The per-trace standard deviations go through a square root, so the
removal conditions live in `ℝ`; the trace data stay rational. -/

/-- A correlation trace as `stack` sees it: `stats.starttime`,
`stats.sampling_rate`, and the data samples (`stats.npts` is
`data.length`). -/
structure STrc where
  start : ℚ
  df : ℚ
  data : List ℚ
deriving DecidableEq

/-- Embeds `quality_cft(trac) = bn.nanstd(abs(trac.data))` (source lines
119-121): population standard deviation of the absolute sample values.
The variance is rational; the square root lives in `ℝ`. -/
noncomputable def quality_cft (tr : STrc) : ℝ :=
  Real.sqrt ((popVarQ (tr.data.map pyAbs) : ℚ) : ℝ)

open Classical

/-- The `for itr, tr in enumerate(stall): if ...: stall.remove(tr)` loop
of `stack` (source lines 138-142).  `stall` is an obspy `Stream`, whose
`__iter__` iterates over a SNAPSHOT copy of the trace list (obspy
documents this as making in-loop `remove()` safe), so the loop visits
each original trace `tr` exactly once, in original order, paired with
its precomputed `std_trac[itr]`; `Stream.remove(tr)` (`list.remove`)
deletes from the live stream the first trace equal to `tr`.  The first
argument is the snapshot zipped with `std_trac`, the second the live
(mutating) stream. -/
noncomputable def removalLoop (up dn : ℝ) : List (STrc × ℝ) → List STrc → List STrc
  | [], cur => cur
  | p :: rest, cur =>
      removalLoop up dn rest (if p.2 ≥ up ∨ p.2 ≤ dn then cur.erase p.1 else cur)

/-- The stream surviving `stack`'s removal loop:
`std_trac[itr] = quality_cft(tr)`, `avestd = bn.nanmean(std_trac)`,
`avestdup = avestd*stdup`, `avestddw = avestd*stddown` (source lines
132-136), then the snapshot loop starting from the full stream. -/
noncomputable def stackSurvivors (stall : List STrc) (stdup stddown : ℝ) : List STrc :=
  let stds := stall.map quality_cft
  let avestd := stds.sum / (stall.length : ℝ)
  removalLoop (avestd * stdup) (avestd * stddown) (List.zip stall stds) stall

/-- Embeds `bn.nansum([tr.data for tr in stall], axis=0)`: element-wise sum of
equally long rows. -/
def sumPointwise : List (List ℚ) → List ℚ
  | [] => []
  | d :: rest => rest.foldl (fun acc l => List.zipWith (fun a b => a + b) acc l) d

/-- The trace returned by `stack` (source lines 144-153): header taken
verbatim from the caller's parameters, data
`nansum([tr.data], axis=0) / len(stall)` over the post-loop stream.
When every trace was removed the source divides by zero (NaN data, then
an invalid `Trace` construction): modelled as `none`. -/
structure StackOut where
  start : ℚ
  df : ℚ
  npts : ℕ
  data : Option (List ℚ)

noncomputable def stackRun (stall : List STrc) (df : ℚ) (tstart : ℚ) (npts : ℕ)
    (stdup stddown : ℝ) : StackOut :=
  let surv := stackSurvivors stall stdup stddown
  { start := tstart, df := df, npts := npts,
    data := if surv = [] then none
            else some ((sumPointwise (surv.map STrc.data)).map
                        (fun v => v / (surv.length : ℚ))) }

/-- The call site (source lines 493-499):
`tstart = min([tr.stats.starttime for tr in stall])` over ALL traces of
the stream (computed before `stack` mutates it),
`df = stall[0].stats.sampling_rate`, `npts = stall[0].stats.npts`;
`none` models the `IndexError` on an empty stream. -/
noncomputable def callerStack (stall : List STrc) (stdup stddown : ℝ) : Option StackOut :=
  match stall with
  | [] => none
  | t0 :: _ => some (stackRun stall t0.df (pyMinQ (stall.map STrc.start))
      t0.data.length stdup stddown)

/-- The spec's removal criterion for one trace (claim C1's words): a
trace is an outlier iff its standard deviation is
`≥ avgStd*stdUpMultiplier` or `≤ avgStd*stdDownMultiplier`, where
`avgStd` is the mean standard deviation of ALL input traces. -/
noncomputable def outlierCond (stall : List STrc) (stdup stddown : ℝ) (tr : STrc) : Prop :=
  quality_cft tr ≥ ((stall.map quality_cft).sum / (stall.length : ℝ)) * stdup
  ∨ quality_cft tr ≤ ((stall.map quality_cft).sum / (stall.length : ℝ)) * stddown

/-- Two `decide`s of one proposition agree whatever their `Decidable`
instances. -/
lemma decide_instance_irrel {p : Prop} (h1 h2 : Decidable p) :
    @decide p h1 = @decide p h2 := by
  rw [Subsingleton.elim h1 h2]

/-- The claim's surviving stream: the input traces that are not
outliers, in order. -/
noncomputable def specSurvivors (stall : List STrc) (stdup stddown : ℝ) : List STrc :=
  stall.filter (fun tr => decide (¬ outlierCond stall stdup stddown tr))

/-- Removing flagged traces never touches an unflagged head: every
removed trace has a standard deviation satisfying the outlier
condition, so it cannot be equal to a trace whose deviation does not. -/
lemma removalLoop_cons_unflagged (up dn : ℝ) (a : STrc)
    (ha : ¬(quality_cft a ≥ up ∨ quality_cft a ≤ dn)) :
    ∀ (snap cur : List STrc),
      removalLoop up dn (List.zip snap (snap.map quality_cft)) (a :: cur)
        = a :: removalLoop up dn (List.zip snap (snap.map quality_cft)) cur
  | [], cur => rfl
  | tr :: rest, cur => by
    by_cases h : quality_cft tr ≥ up ∨ quality_cft tr ≤ dn
    · have hne : ¬((a == tr) = true) := by
        simp only [beq_iff_eq]
        rintro rfl
        exact ha h
      simp only [List.map_cons, List.zip_cons_cons, removalLoop, if_pos h,
        List.erase_cons_tail hne]
      exact removalLoop_cons_unflagged up dn a ha rest (cur.erase tr)
    · simp only [List.map_cons, List.zip_cons_cons, removalLoop, if_neg h]
      exact removalLoop_cons_unflagged up dn a ha rest cur

/-- Under snapshot iteration the loop removes exactly the flagged
traces: starting from the full stream it leaves the unflagged traces in
order (duplicates are unproblematic because equal traces have equal
standard deviations, hence equal flags). -/
lemma removalLoop_eq_filter (up dn : ℝ) :
    ∀ l : List STrc,
      removalLoop up dn (List.zip l (l.map quality_cft)) l
        = l.filter (fun tr => decide (¬(quality_cft tr ≥ up ∨ quality_cft tr ≤ dn)))
  | [] => rfl
  | a :: rest => by
    by_cases h : quality_cft a ≥ up ∨ quality_cft a ≤ dn
    · simp only [List.map_cons, List.zip_cons_cons, removalLoop, if_pos h,
        List.erase_cons_head, List.filter_cons, decide_eq_false (not_not_intro h)]
      simp only [Bool.false_eq_true, if_false]
      exact removalLoop_eq_filter up dn rest
    · simp only [List.map_cons, List.zip_cons_cons, removalLoop, if_neg h,
        List.filter_cons, decide_eq_true h]
      have hcons := removalLoop_cons_unflagged up dn a h rest rest
      have hih := removalLoop_eq_filter up dn rest
      simp only [List.zip] at hcons hih
      rw [hcons, hih]
      simp

/-- Evaluation: `quality_cft` of the all-zero two-sample trace is 0. -/
lemma qc_zeros (s d : ℚ) : quality_cft ⟨s, d, [0, 0]⟩ = 0 := by
  have hvar : popVarQ (([0, 0] : List ℚ).map pyAbs) = 0 := by
    norm_num [popVarQ, meanQ, pyAbs]
  rw [quality_cft, hvar]
  simp

/-- Evaluation: `quality_cft` of the constant two-sample trace `[1, 1]` is 0. -/
lemma qc_ones (s d : ℚ) : quality_cft ⟨s, d, [1, 1]⟩ = 0 := by
  have hvar : popVarQ (([1, 1] : List ℚ).map pyAbs) = 0 := by
    norm_num [popVarQ, meanQ, pyAbs]
  rw [quality_cft, hvar]
  simp

/-- Evaluation: `quality_cft` of the two-sample trace `[0, 6]`: variance 9, std 3. -/
lemma qc_zero_six (s d : ℚ) : quality_cft ⟨s, d, [0, 6]⟩ = 3 := by
  have hvar : popVarQ (([0, 6] : List ℚ).map pyAbs) = 9 := by
    norm_num [popVarQ, meanQ, pyAbs]
  rw [quality_cft, hvar]
  rw [show ((9 : ℚ) : ℝ) = 3 ^ 2 by norm_num]
  exact Real.sqrt_sq (by norm_num)

end Pympa

open Classical

/-- Claim C1: because obspy `Stream.__iter__` iterates over a snapshot
copy of the trace list, the in-loop `stall.remove(tr)` is safe and
`std_trac[itr]` stays aligned with `tr`; consequently `stack` removes
exactly the traces whose standard deviation of absolute samples is
`≥ avgStd*stdup` or `≤ avgStd*stddown`, and (whenever at least one
trace survives) the composite data is the sample-by-sample mean of
exactly the surviving traces. -/
theorem Pympa.C1_quality_filter (stall : List STrc) (df tstart : ℚ) (npts : ℕ)
    (stdup stddown : ℝ) :
    stackSurvivors stall stdup stddown = specSurvivors stall stdup stddown
    ∧ (specSurvivors stall stdup stddown ≠ [] →
        (stackRun stall df tstart npts stdup stddown).data
          = some ((sumPointwise ((specSurvivors stall stdup stddown).map STrc.data)).map
              (fun v => v / ((specSurvivors stall stdup stddown).length : ℚ)))) := by
  have hmain : Pympa.stackSurvivors stall stdup stddown
      = Pympa.specSurvivors stall stdup stddown := by
    have hfun : (fun tr => decide (¬ Pympa.outlierCond stall stdup stddown tr))
        = fun tr => decide (¬(Pympa.quality_cft tr
            ≥ ((stall.map Pympa.quality_cft).sum / (stall.length : ℝ)) * stdup
          ∨ Pympa.quality_cft tr
            ≤ ((stall.map Pympa.quality_cft).sum / (stall.length : ℝ)) * stddown)) := by
      funext tr
      exact Pympa.decide_instance_irrel _ _
    simp only [Pympa.stackSurvivors, Pympa.specSurvivors, hfun]
    exact Pympa.removalLoop_eq_filter
      (((stall.map Pympa.quality_cft).sum / (stall.length : ℝ)) * stdup)
      (((stall.map Pympa.quality_cft).sum / (stall.length : ℝ)) * stddown) stall
  refine ⟨hmain, fun hne => ?_⟩
  simp only [Pympa.stackRun, hmain, if_neg hne]

/-- Witness for C1: traces `[0,0]`, `[1,1]`, `[0,6]` (stds 0, 0, 3;
`avgStd = 1`), `stdup = 4`, `stddown = 1/2`: the two dead channels
(std 0 `≤ 1/2`) are removed, the healthy trace `[0,6]` survives and the
composite equals it. -/
theorem Pympa.C1_witness :
    Pympa.stackSurvivors [⟨0, 1, [0, 0]⟩, ⟨0, 1, [1, 1]⟩, ⟨0, 1, [0, 6]⟩] 4 (1 / 2)
      = [⟨0, 1, [0, 6]⟩]
    ∧ (Pympa.stackRun [⟨0, 1, [0, 0]⟩, ⟨0, 1, [1, 1]⟩, ⟨0, 1, [0, 6]⟩] 1 0 2 4 (1 / 2)).data
      = some [0, 6] := by
  have h0 := Pympa.qc_zeros (0 : ℚ) 1
  have h1 := Pympa.qc_ones (0 : ℚ) 1
  have h2 := Pympa.qc_zero_six (0 : ℚ) 1
  have hc0 : Pympa.outlierCond [⟨0, 1, [0, 0]⟩, ⟨0, 1, [1, 1]⟩, ⟨0, 1, [0, 6]⟩]
      4 (1 / 2) ⟨0, 1, [0, 0]⟩ := by
    simp only [Pympa.outlierCond, List.map_cons, List.map_nil, h0, h1, h2, List.sum_cons,
      List.sum_nil, List.length_cons, List.length_nil]
    norm_num
  have hc1 : Pympa.outlierCond [⟨0, 1, [0, 0]⟩, ⟨0, 1, [1, 1]⟩, ⟨0, 1, [0, 6]⟩]
      4 (1 / 2) ⟨0, 1, [1, 1]⟩ := by
    simp only [Pympa.outlierCond, List.map_cons, List.map_nil, h0, h1, h2, List.sum_cons,
      List.sum_nil, List.length_cons, List.length_nil]
    norm_num
  have hc2 : ¬ Pympa.outlierCond [⟨0, 1, [0, 0]⟩, ⟨0, 1, [1, 1]⟩, ⟨0, 1, [0, 6]⟩]
      4 (1 / 2) ⟨0, 1, [0, 6]⟩ := by
    simp only [Pympa.outlierCond, List.map_cons, List.map_nil, h0, h1, h2, List.sum_cons,
      List.sum_nil, List.length_cons, List.length_nil]
    norm_num
  have hfil : Pympa.specSurvivors [⟨0, 1, [0, 0]⟩, ⟨0, 1, [1, 1]⟩, ⟨0, 1, [0, 6]⟩] 4 (1 / 2)
      = [⟨0, 1, [0, 6]⟩] := by
    simp only [Pympa.specSurvivors, List.filter_cons, List.filter_nil,
      decide_eq_false (not_not_intro hc0), decide_eq_false (not_not_intro hc1),
      decide_eq_true hc2]
    simp
  have h := Pympa.C1_quality_filter [⟨0, 1, [0, 0]⟩, ⟨0, 1, [1, 1]⟩, ⟨0, 1, [0, 6]⟩]
    1 0 2 4 (1 / 2)
  have hdata := h.2 (by rw [hfil]; simp)
  rw [hfil] at hdata
  refine ⟨by rw [h.1, hfil], ?_⟩
  rw [hdata]
  norm_num [Pympa.sumPointwise]

/-- Claim C7: the code has no error handling for the all-removed case.
A single all-zero correlation trace has std 0, `avgStd = 0`, and the
condition `std >= avgStd*stdup` holds (`0 >= 0`), so the loop removes
every trace; `stack` then computes `bn.nansum([], axis=0) / 0` — a NaN
scalar (modelled `none`) fed to `Trace(...)`, which raises and, with no
handler in the script, kills the whole batch instead of reporting an
`AllChannelsOutlierError` and moving on. -/
theorem Pympa.C7_all_removed :
    Pympa.stackSurvivors [⟨0, 1, [0, 0]⟩] 4 (1 / 2) = []
    ∧ (Pympa.stackRun [⟨0, 1, [0, 0]⟩] 1 0 2 4 (1 / 2)).data = none := by
  have h0 := Pympa.qc_zeros (0 : ℚ) 1
  have hsurv : Pympa.stackSurvivors [⟨0, 1, [0, 0]⟩] 4 (1 / 2) = [] := by
    simp only [Pympa.stackSurvivors, List.map_cons, List.map_nil, h0, List.sum_cons,
      List.sum_nil, List.length_cons, List.length_nil]
    norm_num [Pympa.removalLoop, List.zip_cons_cons, List.zip_nil_right,
      List.erase_cons_head]
  refine ⟨hsurv, ?_⟩
  simp only [Pympa.stackRun, hsurv]
  simp

/-- Claim C8 (amended): the composite's header comes from the caller's
parameters, computed BEFORE the outlier filter mutates the stream:
`startTime = min(starttime)` over ALL input traces, `sampleRate` and
`sampleCount` from the first input trace. -/
theorem Pympa.C8_header (stall : List Pympa.STrc) (t0 : Pympa.STrc)
    (rest : List Pympa.STrc) (stdup stddown : ℝ) (h : stall = t0 :: rest) :
    (Pympa.callerStack stall stdup stddown).map Pympa.StackOut.start
      = some (Pympa.pyMinQ (stall.map Pympa.STrc.start))
    ∧ (Pympa.callerStack stall stdup stddown).map Pympa.StackOut.df = some t0.df
    ∧ (Pympa.callerStack stall stdup stddown).map Pympa.StackOut.npts
      = some t0.data.length := by
  subst h
  refine ⟨?_, ?_, ?_⟩ <;> simp [Pympa.callerStack, Pympa.stackRun]

/-- Witness for the amended C8: two traces starting at 3 and 1, both
with `df = 2` and one sample; the composite header keeps start 1
(minimum over all), `df = 2`, `npts = 1`. -/
theorem Pympa.C8_witness :
    (Pympa.callerStack [⟨3, 2, [5]⟩, ⟨1, 2, [7]⟩] 4 (1 / 2)).map Pympa.StackOut.start
      = some 1
    ∧ (Pympa.callerStack [⟨3, 2, [5]⟩, ⟨1, 2, [7]⟩] 4 (1 / 2)).map Pympa.StackOut.df
      = some 2
    ∧ (Pympa.callerStack [⟨3, 2, [5]⟩, ⟨1, 2, [7]⟩] 4 (1 / 2)).map Pympa.StackOut.npts
      = some 1 := by
  have h := Pympa.C8_header [⟨3, 2, [5]⟩, ⟨1, 2, [7]⟩] ⟨3, 2, [5]⟩ [⟨1, 2, [7]⟩]
    4 (1 / 2) rfl
  refine ⟨?_, ?_, ?_⟩
  · have h1 := h.1
    norm_num [Pympa.pyMinQ, Pympa.min2] at h1 ⊢
    exact h1
  · exact h.2.1
  · simpa using h.2.2

/-- Counterexample to C8 as stated: with traces starting at 0 (std 0,
removed by the filter) and 10 (std 3, surviving), the composite's
`startTime` is 0 — the minimum over ALL input traces — while the
minimum over the SURVIVING traces is 10. -/
theorem Pympa.C8_counterexample :
    (Pympa.callerStack [⟨0, 1, [0, 0]⟩, ⟨10, 1, [0, 6]⟩] 4 (1 / 2)).map Pympa.StackOut.start
      = some 0
    ∧ Pympa.stackSurvivors [⟨0, 1, [0, 0]⟩, ⟨10, 1, [0, 6]⟩] 4 (1 / 2) = [⟨10, 1, [0, 6]⟩]
    ∧ Pympa.pyMinQ ((Pympa.stackSurvivors [⟨0, 1, [0, 0]⟩, ⟨10, 1, [0, 6]⟩] 4 (1 / 2)).map
        Pympa.STrc.start) = 10
    ∧ (0 : ℚ) ≠ 10 := by
  have h0 := Pympa.qc_zeros (0 : ℚ) 1
  have h2 := Pympa.qc_zero_six (10 : ℚ) 1
  have hsurv : Pympa.stackSurvivors [⟨0, 1, [0, 0]⟩, ⟨10, 1, [0, 6]⟩] 4 (1 / 2)
      = [⟨10, 1, [0, 6]⟩] := by
    simp only [Pympa.stackSurvivors, List.map_cons, List.map_nil, h0, h2, List.sum_cons,
      List.sum_nil, List.length_cons, List.length_nil]
    norm_num [Pympa.removalLoop, List.zip_cons_cons, List.zip_nil_right,
      List.erase_cons_head]
  refine ⟨?_, hsurv, ?_, by norm_num⟩
  · norm_num [Pympa.callerStack, Pympa.stackRun, Pympa.pyMinQ, Pympa.min2]
  · rw [hsurv]
    simp [Pympa.pyMinQ]

namespace Pympa

/-! The CFT alignment pass (source lines 479-491): each trace is
trimmed with `nearest_sample=True, pad=True, fill_value=0` to the
window `[starttime + tdif[idx], starttime + tdif[idx] + 86400 + 60]`. -/

/-- A correlation trace for the alignment pass: start time, sample
interval `delta`, `stats.npts`, and the samples as a total function
(indices outside `[0, npts)` are irrelevant; keeping the data as a
function avoids materialising day-long sample lists). -/
structure CftTrc where
  start : ℚ
  delta : ℚ
  npts : ℕ
  data : ℕ → ℚ

/-- Junk default trace for `List.getD`. -/
def CftTrc.dflt : CftTrc := ⟨0, 1, 0, fun _ => 0⟩

/-- Embeds `Trace.trim(ts, te, nearest_sample=True, pad=True, fill_value=0)`
(obspy `_ltrim`/`_rtrim`): the kept window starts
`i0 = round((ts - starttime) / delta)` samples after the first sample
and ends `i1 = round((te - endtime) / delta)` samples after the last
(`endtime = starttime + (npts - 1) * delta`); missing samples are
zero-filled, and the new start time is snapped to the sample grid. -/
def trimNearestPad (tr : CftTrc) (ts te : ℚ) : CftTrc :=
  let i0 : ℤ := pyRound ((ts - tr.start) / tr.delta)
  let i1 : ℤ := pyRound ((te - (tr.start + ((tr.npts : ℤ) - 1) * tr.delta)) / tr.delta)
  { start := tr.start + (i0 : ℚ) * tr.delta
    delta := tr.delta
    npts := ((tr.npts : ℤ) + i1 - i0).toNat
    data := fun j =>
      if 0 ≤ i0 + (j : ℤ) ∧ i0 + (j : ℤ) < (tr.npts : ℤ) then tr.data (i0 + (j : ℤ)).toNat
      else 0 }

/-- The `for idx, tc_cft in enumerate(stream_cft)` loop (source lines
479-491): `Tstart[idx] = tc_cft.stats.starttime + tdif[idx]`,
`Tend[idx] = Tstart[idx] + 86400 + 60`, then the nearest-sample padded
trim of each trace to ITS OWN corrected window. -/
def alignLoop (trs : List CftTrc) (tdif : List ℚ) : List CftTrc :=
  List.zipWith (fun tr td => trimNearestPad tr (tr.start + td) (tr.start + td + 86460))
    trs tdif

/-- Reading `getD` through `zipWith`, for indices inside both lists. -/
lemma zipWith_getD {α β γ : Type} (f : α → β → γ) :
    ∀ (l1 : List α) (l2 : List β) (i : ℕ) (d1 : α) (d2 : β) (d3 : γ),
      i < l1.length → i < l2.length →
      (List.zipWith f l1 l2).getD i d3 = f (l1.getD i d1) (l2.getD i d2)
  | [], _, _, _, _, _, h1, _ => absurd h1 (by simp)
  | _ :: _, [], _, _, _, _, _, h2 => absurd h2 (by simp)
  | a :: t1, b :: t2, 0, d1, d2, d3, _, _ => rfl
  | a :: t1, b :: t2, i + 1, d1, d2, d3, h1, h2 => by
    simp only [List.zipWith_cons_cons, List.getD_cons_succ]
    exact zipWith_getD f t1 t2 i d1 d2 d3 (by simpa using h1) (by simpa using h2)

/-- Python rounding commutes with adding an integer, away from the
half-to-even tie. -/
lemma pyRound_add_int (q : ℚ) (k : ℤ) (h : q - ⌊q⌋ ≠ 1 / 2) :
    pyRound (q + k) = pyRound q + k := by
  simp only [pyRound, Int.floor_add_int, Int.cast_add]
  have hfr : q + (k : ℚ) - ((⌊q⌋ : ℚ) + (k : ℚ)) = q - (⌊q⌋ : ℚ) := by ring
  rw [hfr]
  rcases lt_trichotomy (q - (⌊q⌋ : ℚ)) (1 / 2) with hlt | heq | hgt
  · rw [if_pos hlt, if_pos hlt]
  · exact absurd heq h
  · rw [if_neg (not_lt.mpr hgt.le), if_pos hgt, if_neg (not_lt.mpr hgt.le), if_pos hgt]
    omega

end Pympa

/-- Claim C2 (amended): the alignment loop trims every correlation
trace, with zero fill and nearest-sample snapping, to ITS OWN corrected
window `[start_i + tdif_i, start_i + tdif_i + 24h + 60s]` — not to a
single common window starting at the minimum corrected start.  The
output start time is the trace's own corrected start snapped to its
sample grid, and whenever `24h + 60s` is an integer multiple `K` of the
sample interval every trace gets the same sample count `K + 1`, which
is what the stacking step actually requires. -/
theorem Pympa.C2_per_trace_window (trs : List CftTrc) (tdif : List ℚ) (i : ℕ) (K : ℤ)
    (h1 : i < trs.length) (h2 : i < tdif.length)
    (hpos : 0 < (trs.getD i CftTrc.dflt).delta)
    (hK : (trs.getD i CftTrc.dflt).delta * (K : ℚ) = 86460)
    (htie : tdif.getD i 0 / (trs.getD i CftTrc.dflt).delta
        - (⌊tdif.getD i 0 / (trs.getD i CftTrc.dflt).delta⌋ : ℚ) ≠ 1 / 2) :
    (alignLoop trs tdif).getD i CftTrc.dflt
      = trimNearestPad (trs.getD i CftTrc.dflt)
          ((trs.getD i CftTrc.dflt).start + tdif.getD i 0)
          ((trs.getD i CftTrc.dflt).start + tdif.getD i 0 + 86460)
    ∧ ((alignLoop trs tdif).getD i CftTrc.dflt).start
      = (trs.getD i CftTrc.dflt).start
        + (pyRound (tdif.getD i 0 / (trs.getD i CftTrc.dflt).delta) : ℚ)
          * (trs.getD i CftTrc.dflt).delta
    ∧ ((alignLoop trs tdif).getD i CftTrc.dflt).npts = (K + 1).toNat := by
  have hΔ0 : (trs.getD i CftTrc.dflt).delta ≠ 0 := ne_of_gt hpos
  have hget : (alignLoop trs tdif).getD i CftTrc.dflt
      = trimNearestPad (trs.getD i CftTrc.dflt)
          ((trs.getD i CftTrc.dflt).start + tdif.getD i 0)
          ((trs.getD i CftTrc.dflt).start + tdif.getD i 0 + 86460) := by
    exact zipWith_getD _ trs tdif i CftTrc.dflt 0 CftTrc.dflt h1 h2
  set tr := trs.getD i CftTrc.dflt with htr
  set td := tdif.getD i 0 with htd
  have hi0 : (tr.start + td - tr.start) / tr.delta = td / tr.delta := by
    rw [show tr.start + td - tr.start = td from by ring]
  have harg : (tr.start + td + 86460 - (tr.start + ((tr.npts : ℤ) - 1) * tr.delta)) / tr.delta
      = td / tr.delta + ((K - (tr.npts : ℤ) + 1 : ℤ) : ℚ) := by
    have hnum : tr.start + td + 86460 - (tr.start + ((tr.npts : ℤ) - 1) * tr.delta)
        = td + ((K - (tr.npts : ℤ) + 1 : ℤ) : ℚ) * tr.delta := by
      push_cast
      linear_combination -hK
    rw [hnum, add_div, mul_div_assoc, div_self hΔ0, mul_one]
  have hi1 : pyRound ((tr.start + td + 86460 - (tr.start + ((tr.npts : ℤ) - 1) * tr.delta))
        / tr.delta)
      = pyRound (td / tr.delta) + (K - (tr.npts : ℤ) + 1) := by
    rw [harg]
    exact pyRound_add_int (td / tr.delta) (K - (tr.npts : ℤ) + 1) htie
  refine ⟨hget, ?_, ?_⟩
  · rw [hget]
    simp only [trimNearestPad, hi0]
  · rw [hget]
    simp only [trimNearestPad, hi0, hi1]
    omega

/-- Witness for the amended C2: one trace starting at 10 with `delta =
1`, correction `1/4`: the trimmed trace starts at its own snapped
corrected start `10 + round(1/4) = 10` and has `86460 + 1` samples. -/
theorem Pympa.C2_witness :
    (alignLoop [⟨10, 1, 100, fun _ => 0⟩] [1 / 4]).getD 0 CftTrc.dflt
      = trimNearestPad ⟨10, 1, 100, fun _ => 0⟩ (10 + 1 / 4) (10 + 1 / 4 + 86460)
    ∧ ((alignLoop [⟨10, 1, 100, fun _ => 0⟩] [1 / 4]).getD 0 CftTrc.dflt).start = 10
    ∧ ((alignLoop [⟨10, 1, 100, fun _ => 0⟩] [1 / 4]).getD 0 CftTrc.dflt).npts = 86461 := by
  have h := Pympa.C2_per_trace_window [⟨10, 1, 100, fun _ => 0⟩] [1 / 4] 0 86460
    (by norm_num) (by norm_num) (by norm_num [List.getD]) (by norm_num [List.getD])
    (by norm_num [List.getD, show ⌊(1 / 4 : ℚ)⌋ = 0 from by norm_num [Int.floor_eq_iff]])
  refine ⟨?_, ?_, ?_⟩
  · have h1 := h.1
    simpa [List.getD] using h1
  · have h2 := h.2.1
    rw [h2]
    norm_num [List.getD, pyRound, show ⌊(1 / 4 : ℚ)⌋ = 0 from by norm_num [Int.floor_eq_iff]]
  · have h3 := h.2.2
    rw [h3]
    rfl

/-- Counterexample to C2 as stated: two traces starting at 0 and 10
(`delta = 1`, zero corrections) have `minCorrectedStart = 0`, yet the
loop's output start times are `[0, 10]` — each trace keeps its own
corrected window, so the traces do NOT share the claimed common start
`minCorrectedStart`. -/
theorem Pympa.C2_counterexample :
    ((alignLoop [⟨0, 1, 5, fun _ => 0⟩, ⟨10, 1, 5, fun _ => 0⟩] [0, 0]).map CftTrc.start)
      = [0, 10]
    ∧ pyMinQ [0 + 0, 10 + 0] = 0
    ∧ (10 : ℚ) ≠ 0 := by
  refine ⟨?_, by norm_num [Pympa.pyMinQ, Pympa.min2], by norm_num⟩
  norm_num [Pympa.alignLoop, Pympa.trimNearestPad, Pympa.pyRound]
